import Mathlib

/-!
Verification of the Werewolf game engine.

Shallow embedding of the orchestration core of the repository:
  * `src/core/player.py`     — `Role`, `GamePhase`, `Player`
  * `src/core/game_state.py` — `GameState` and its query/mutator methods
  * `src/core/game.py`       — event distribution, night kill, voting round

Modelling conventions:
  * The Python `dict` roster (`name -> Player`, insertion ordered) is a
    `List Player`; dictionary insertion that overwrites an existing key in
    place is `dictInsert`.  Mutation of a `Player` object reached through a
    reference is a `List.map` that rewrites the entry with that name
    (dictionary keys are names, hence unique in states built by the code).
  * `random.shuffle` and `faker.name()` are parameters: a shuffled role list
    and a list of generated names.  `random.choice` is an index parameter.
  * An agent call that raises is a `none` entry in the response list.
  * Python truthiness of an optional string (`if x:`) is `truthyOpt`:
    both `None` and `""` are falsy.
-/

namespace Werewolf

/-- `Role` enum from `player.py` (`GOD` is the moderator). -/
inductive Role where
  | WOLF
  | CIVILIAN
  | GOD
deriving DecidableEq, Repr

/-- `Role.value` strings. -/
def Role.value : Role → String
  | .WOLF => "wolf"
  | .CIVILIAN => "civilian"
  | .GOD => "god"

/-- `GamePhase` enum from `player.py`. -/
inductive GamePhase where
  | DAY
  | NIGHT
  | GAME_OVER
deriving DecidableEq, Repr

/-- `GamePhase.value` strings. -/
def GamePhase.value : GamePhase → String
  | .DAY => "day"
  | .NIGHT => "night"
  | .GAME_OVER => "game_over"

/-- `EventType` enum from `game.py`. -/
inductive EventType where
  | PUBLIC
  | WOLF_PRIVATE
  | ELIMINATION
  | GAME_STATE
  | NIGHT_KILL
  | DAY_TRANSITION
  | DAY_NUMBER_CHANGE
deriving DecidableEq, Repr

/-- `Player` from `player.py`.  The `agent` handle is external to the engine
and carries no game state, so it is not part of the embedding. -/
structure Player where
  player_id : Nat
  name : String
  role : Role
  is_alive : Bool
  votes_received : Int
  vote_target : Option String
deriving DecidableEq, Repr

/-- `Player.__init__`: alive, zero tally, no vote target. -/
def Player.mk0 (i : Nat) (nm : String) (r : Role) : Player :=
  ⟨i, nm, r, true, 0, none⟩

/-- `Player.is_wolf`. -/
def Player.is_wolf (p : Player) : Bool := p.role == .WOLF

/-- `Player.is_civilian`. -/
def Player.is_civilian (p : Player) : Bool := p.role == .CIVILIAN

/-- `Player.is_god`. -/
def Player.is_god (p : Player) : Bool := p.role == .GOD

/-- `GameState` from `game_state.py`.  The roster is the insertion-ordered
dictionary `self.players`; the speaker queue holds references to roster
players, modelled by their (unique) names.  The `_god_player`, `_wolves`,
`_civilians` caches are derived data not consulted by the verified
operations and are omitted. -/
structure GameState where
  num_players : Nat
  players : List Player
  current_phase : GamePhase
  day_count : Nat
  speaker_queue : List String
  game_history : List String
  night_kill_target : Option String
  voting_enabled : Bool
deriving DecidableEq, Repr

/-- Python truthiness of an optional string: `None` and `""` are falsy. -/
def truthyOpt : Option String → Bool
  | none => false
  | some s => !(s == "")

/-- `GameState.alive_players`. -/
def GameState.alive_players (gs : GameState) : List Player :=
  gs.players.filter (fun p => p.is_alive)

/-- `GameState.alive_wolves`. -/
def GameState.alive_wolves (gs : GameState) : List Player :=
  gs.players.filter (fun p => p.is_alive && p.is_wolf)

/-- `GameState.alive_civilians`. -/
def GameState.alive_civilians (gs : GameState) : List Player :=
  gs.players.filter (fun p => p.is_alive && p.is_civilian)

/-- `GameState.check_game_over`: no alive wolves → Civilians; otherwise no
alive civilians, or at least as many alive wolves as civilians → Wolves. -/
def GameState.check_game_over (gs : GameState) : Bool × String :=
  let alive_wolves := gs.alive_wolves
  let alive_civilians := gs.alive_civilians
  if alive_wolves.isEmpty then (true, "Civilians")
  else if alive_civilians.isEmpty then (true, "Wolves")
  else if alive_civilians.length ≤ alive_wolves.length then (true, "Wolves")
  else (false, "")

/-- The guard of `GameState.__init__`: the code rejects a player count below
3 or above 15 (its docstring and error message say 6–15). -/
def numPlayersAccepted (n : Nat) : Bool := !(n < 3 || n > 15)

/-- The speaker queue built by `GameState.update_speaking_order`: alive
non-moderator roster entries, in roster order. -/
def speakingOrder (ps : List Player) : List String :=
  (ps.filter (fun p => p.is_alive && !p.is_god)).map (fun p => p.name)

/-- `GameState.update_speaking_order`. -/
def GameState.update_speaking_order (gs : GameState) : GameState :=
  { gs with speaker_queue := speakingOrder gs.players }

/-- `GameState.get_next_speaker`: pop the front of the queue (`pop(0)`). -/
def GameState.get_next_speaker (gs : GameState) : Option String × GameState :=
  match gs.speaker_queue with
  | [] => (none, gs)
  | s :: rest => (some s, { gs with speaker_queue := rest })

/-- Dictionary lookup `self.players[name]` (first — and, with unique keys,
only — roster entry with that name). -/
def GameState.findPlayer (gs : GameState) (nm : String) : Option Player :=
  gs.players.find? (fun p => p.name == nm)

/-- Mutation through a roster reference: rewrite the entry named `nm`.
Python reaches the object through the dictionary, whose keys are unique;
an absent name rewrites nothing. -/
def GameState.mapPlayer (gs : GameState) (nm : String) (f : Player → Player) : GameState :=
  { gs with players := gs.players.map (fun p => if p.name == nm then f p else p) }

/-- `GameState.kill_player`: if the reference is known, set `is_alive = False`
and rebuild the speaker queue; unknown references are a silent no-op. -/
def GameState.kill_player (gs : GameState) (pid : String) : GameState :=
  if gs.players.any (fun p => p.name == pid) then
    (gs.mapPlayer pid (fun p => { p with is_alive := false })).update_speaking_order
  else gs

/-- `GameState.vote_for_player`: no-op unless both references are known and
alive; a truthy prior `vote_target` has its tally decremented first, then the
new target is recorded and incremented.  (A dangling prior target would raise
`KeyError` in Python; it is unreachable through the engine because vote
targets are always roster members, and is a no-op rewrite here.) -/
def GameState.vote_for_player (gs : GameState) (voter_id target_id : String) : GameState :=
  match gs.findPlayer voter_id, gs.findPlayer target_id with
  | some voter, some target =>
    if voter.is_alive && target.is_alive then
      let gs1 :=
        match voter.vote_target with
        | some prior =>
          if prior == "" then gs
          else gs.mapPlayer prior (fun p => { p with votes_received := p.votes_received - 1 })
        | none => gs
      let gs2 := gs1.mapPlayer voter_id (fun p => { p with vote_target := some target_id })
      gs2.mapPlayer target_id (fun p => { p with votes_received := p.votes_received + 1 })
    else gs
  | _, _ => gs

/-- The guard of `vote_for_player`: both references are known roster keys
and both players are currently alive (`voter_id in self.players and ...`
followed by the two `is_alive` tests). -/
def bothAlive (gs : GameState) (v t : String) : Bool :=
  (match gs.findPlayer v with
   | some p => p.is_alive
   | none => false) &&
  (match gs.findPlayer t with
   | some p => p.is_alive
   | none => false)

/-- `GameState.get_vote_results`: tally dictionary over alive non-moderator
players; `None` when that dictionary is empty or its maximum is zero;
otherwise the (first) players at the maximum, with `random.choice` over a
tie modelled by the index parameter `choice`. -/
def GameState.get_vote_results (gs : GameState) (choice : Nat) :
    Option String × List (String × Int) :=
  let vote_counts :=
    (gs.players.filter (fun p => p.is_alive && !p.is_god)).map
      (fun p => (p.name, p.votes_received))
  if vote_counts.isEmpty then (none, vote_counts)
  else
    let max_votes := ((vote_counts.map (fun x => x.2)).max?).getD 0
    if max_votes == 0 then (none, vote_counts)
    else
      let max_vote_players :=
        (vote_counts.filter (fun x => x.2 == max_votes)).map (fun x => x.1)
      if 1 < max_vote_players.length then
        (some (max_vote_players.getD (choice % max_vote_players.length) ""), vote_counts)
      else
        (some (max_vote_players.getD 0 ""), vote_counts)

/-- `GameState.reset_votes` / `Player.reset_votes`: zero every tally and
clear every vote target. -/
def GameState.reset_votes (gs : GameState) : GameState :=
  { gs with players :=
      gs.players.map (fun p => { p with votes_received := 0, vote_target := none }) }

/-- `GameState.add_to_history`: append with the day/phase prefix. -/
def GameState.add_to_history (gs : GameState) (message : String) : GameState :=
  { gs with game_history :=
      gs.game_history ++
        ["Day " ++ toString gs.day_count ++ " (" ++ gs.current_phase.value ++ "): " ++ message] }

/-- `num_wolves = max(1, int(num_players * 0.2))`.  For every
`num_players ≤ 15` the double product `n * 0.2` truncates to the same
integer as exact division by 5 (the accumulated rounding never crosses an
integer boundary below 16), so the float expression is `Nat` division. -/
def numWolves (n : Nat) : Nat := max 1 (n / 5)

/-- `num_civilians = num_players - num_wolves - num_gods` with one god. -/
def numCivilians (n : Nat) : Nat := n - numWolves n - 1

/-- The role multiset built by `_initialize_players` before shuffling. -/
def rolesList (n : Nat) : List Role :=
  List.replicate (numWolves n) Role.WOLF ++ List.replicate 1 Role.GOD ++
    List.replicate (numCivilians n) Role.CIVILIAN

/-- Python dictionary insertion `d[key] = value`: an existing key keeps its
position and has its value overwritten; a fresh key is appended. -/
def dictInsert (ps : List Player) (p : Player) : List Player :=
  if ps.any (fun q => q.name == p.name) then
    ps.map (fun q => if q.name == p.name then p else q)
  else ps ++ [p]

/-- The roster-building loop of `_initialize_players`:
`for i in range(num_players): players[names[i]] = Player(i, names[i], roles[i])`.
`roles` is the shuffled role list, `names` the generated display names. -/
def buildPlayers (roles : List Role) (names : List String) (n : Nat) : List Player :=
  (List.range n).foldl
    (fun ps i => dictInsert ps (Player.mk0 i (names.getD i "") (roles.getD i Role.CIVILIAN)))
    []

/-- `GameState.__init__` + `_initialize_players`, with the shuffled role list
and the generated names as parameters; `none` models the raised error. -/
def initGameState (n : Nat) (roles : List Role) (names : List String) : Option GameState :=
  if n < 3 || n > 15 then none
  else
    let ps := buildPlayers roles names n
    some
      { num_players := n
        players := ps
        current_phase := GamePhase.DAY
        day_count := 1
        speaker_queue := speakingOrder ps
        game_history := []
        night_kill_target := none
        voting_enabled := false }

/-- Occurrences of a role in a roster. -/
def countRole (ps : List Player) (r : Role) : Nat :=
  (ps.map (fun p => p.role)).count r

/-- Visibility rule of `_distribute_event_to_agents`: the moderator is
skipped; `PUBLIC` needs the receiver alive; `WOLF_PRIVATE` needs an alive
wolf; every other category reaches alive and dead players. -/
def shouldReceive (et : EventType) (p : Player) : Bool :=
  if p.is_god then false
  else
    match et with
    | .PUBLIC => p.is_alive
    | .WOLF_PRIVATE => p.is_alive && p.is_wolf
    | _ => true

/-- The players whose agents get `add_event` for one distributed event, in
roster order. -/
def eventRecipients (gs : GameState) (et : EventType) : List Player :=
  gs.players.filter (shouldReceive et)

/-- `WerewolfGame.execute_night_kill`: linear scan for an exact name match;
on a hit the player's alive flag is cleared and one history line appended
(no speaker-queue rebuild, no other field touched); on a miss, `False`. -/
def execute_night_kill (gs : GameState) (target_name : String) : Bool × GameState :=
  if gs.players.any (fun p => p.name == target_name) then
    (true,
      { gs with
          players :=
            gs.players.map
              (fun p => if p.name == target_name then { p with is_alive := false } else p)
          game_history := gs.game_history ++ [target_name ++ " was killed by wolves"] })
  else (false, gs)

/-- `EliminatedPlayer` dataclass from `voting_models.py`. -/
structure EliminatedPlayer where
  name : String
  role : String
deriving DecidableEq, Repr

/-- `VotingResult` dataclass from `voting_models.py` (`vote_counts` is the
name-keyed tally dictionary). -/
structure VotingResult where
  votes : List String
  vote_counts : List (String × Int)
  eliminated : Option EliminatedPlayer
  error : Option String
deriving DecidableEq, Repr

/-- Whether `pat` starts `l` (character-wise). -/
def startsWithChars : List Char → List Char → Bool
  | [], _ => true
  | _ :: _, [] => false
  | a :: as, b :: bs => a == b && startsWithChars as bs

/-- Python substring test `pat in l` over character lists. -/
def containsChars (pat : List Char) : List Char → Bool
  | [] => pat.isEmpty
  | c :: rest => startsWithChars pat (c :: rest) || containsChars pat rest

/-- Python `pat in s` on strings. -/
def strContains (s pat : String) : Bool := containsChars pat.data s.data

/-- ASCII lower-casing of one character, as Python's `str.lower()` acts on
the ASCII display names the engine handles. -/
def charLower (c : Char) : Char :=
  if 65 ≤ c.toNat && c.toNat ≤ 90 then Char.ofNat (c.toNat + 32) else c

/-- Python `str.lower()` over ASCII names. -/
def strLower (s : String) : String := ⟨s.data.map charLower⟩

/-- Python `str.strip()`: drop leading and trailing whitespace. -/
def strTrim (s : String) : String :=
  ⟨((s.data.dropWhile Char.isWhitespace).reverse.dropWhile Char.isWhitespace).reverse⟩

/-- Target resolution in `run_voting_phase`: strip, first case-insensitive
substring match against the eligible names, else the raw string if it is
itself eligible, else the first eligible name. -/
def resolveTarget (eligible : List String) (resp : String) : String :=
  let v := strTrim resp
  let v :=
    match eligible.find? (fun t => strContains (strLower v) (strLower t)) with
    | some t => t
    | none => v
  if eligible.contains v then v else eligible.getD 0 ""

/-- The vote-collection loop of `run_voting_phase`.  One response per
eligible voter in roster order; a `none` response (or a missing one) is an
agent call that raised, aborting the loop with the partially mutated state
(`Except.error`).  On success: the final state and the `voting_process`
log lines. -/
def collectVotes (gs : GameState) (eligible : List String) :
    List String → List (Option String) → List String →
      Except GameState (GameState × List String)
  | [], _, acc => Except.ok (gs, acc)
  | _ :: _, [], _ => Except.error gs
  | _ :: _, none :: _, _ => Except.error gs
  | v :: vs, some resp :: rs, acc =>
    let target := resolveTarget eligible resp
    let gs1 := gs.vote_for_player v target
    let msg := v ++ " voted for " ++ target
    let gs2 := gs1.add_to_history msg
    collectVotes gs2 eligible vs rs (acc ++ [msg])

/-- `WerewolfGame.run_voting_phase`.  `responses` supplies each voter's
agent reply (`none` = the call raised); `choice` is the tie-break draw.
The `except` branch returns an empty `VotingResult` carrying an error
string and leaves the state as the fault found it; the raised message text
is abstracted to `"error"`. -/
def run_voting_phase (gs0 : GameState) (responses : List (Option String)) (choice : Nat) :
    VotingResult × GameState :=
  let eligible :=
    ((gs0.players.filter (fun p => p.is_alive && !p.is_god)).map (fun p => p.name))
  match collectVotes gs0 eligible eligible responses [] with
  | .error gs =>
    ({ votes := [], vote_counts := [], eliminated := none, error := some "error" }, gs)
  | .ok (gs, proc) =>
    match gs.get_vote_results choice with
    | (some pid, counts) =>
      if pid == "" then
        ({ votes := proc, vote_counts := counts, eliminated := none, error := none },
          gs.reset_votes)
      else
        match gs.findPlayer pid with
        | some pObj =>
          ({ votes := proc, vote_counts := counts,
              eliminated := some ⟨pObj.name, pObj.role.value⟩, error := none },
            ((gs.kill_player pid).add_to_history
              (pObj.name ++ " (" ++ pObj.role.value ++ ") was eliminated by vote")).reset_votes)
        | none =>
          ({ votes := [], vote_counts := [], eliminated := none, error := some "error" }, gs)
    | (none, counts) =>
      ({ votes := proc, vote_counts := counts, eliminated := none, error := none },
        gs.reset_votes)

/-! Concrete states used to evaluate the embedding on explicit inputs. -/

/-- A six-player mid-game roster: three civilians, two wolves, one moderator,
with one civilian already dead.  Day 2, voting enabled, queue as rebuilt at
day start. -/
def gsDemo : GameState :=
  { num_players := 6
    players :=
      [⟨0, "Ann", Role.CIVILIAN, true, 0, none⟩,
       ⟨1, "Bob", Role.CIVILIAN, true, 0, none⟩,
       ⟨2, "Wil", Role.WOLF, true, 0, none⟩,
       ⟨3, "Gil", Role.GOD, true, 0, none⟩,
       ⟨4, "Eve", Role.CIVILIAN, false, 0, none⟩,
       ⟨5, "Zed", Role.WOLF, true, 0, none⟩]
    current_phase := GamePhase.DAY
    day_count := 2
    speaker_queue := ["Ann", "Bob", "Wil", "Zed"]
    game_history := []
    night_kill_target := none
    voting_enabled := true }

/-- A state after a simultaneous wipe: the last wolf and the last civilian
are both dead, only the moderator survives. -/
def gsAllDead : GameState :=
  { num_players := 3
    players :=
      [⟨0, "Ann", Role.CIVILIAN, false, 0, none⟩,
       ⟨1, "Wil", Role.WOLF, false, 0, none⟩,
       ⟨2, "Gil", Role.GOD, true, 0, none⟩]
    current_phase := GamePhase.DAY
    day_count := 3
    speaker_queue := []
    game_history := []
    night_kill_target := none
    voting_enabled := true }

end Werewolf

namespace Werewolf

/-! ### Helper lemmas -/

theorem int_max?_eq_some_iff {xs : List Int} {a : Int} :
    xs.max? = some a ↔ a ∈ xs ∧ ∀ b ∈ xs, b ≤ a :=
  haveI : Std.Antisymm ((· : Int) ≤ ·) := ⟨fun h₁ h₂ => Int.le_antisymm h₁ h₂⟩
  List.max?_eq_some_iff (fun _ => le_refl _) (fun _ _ => max_choice _ _)
    (fun _ _ _ => max_le_iff)

/-! ### Claim theorems -/

/-- C1 (amended): `check_game_over` returns `(true, "Civilians")` iff no
wolves are alive; it returns `(true, "Wolves")` iff at least one wolf is
alive and alive wolves ≥ alive civilians; and in the degenerate case where
both counts are zero it returns winner `"Civilians"` — the no-wolves check
runs first, so a simultaneous wipe is a Civilians victory. -/
theorem check_game_over_spec (gs : GameState) :
    (gs.check_game_over = (true, "Civilians") ↔ gs.alive_wolves.length = 0) ∧
    (gs.check_game_over = (true, "Wolves") ↔
      1 ≤ gs.alive_wolves.length ∧ gs.alive_civilians.length ≤ gs.alive_wolves.length) ∧
    (gs.alive_wolves.length = 0 → gs.alive_civilians.length = 0 →
      gs.check_game_over = (true, "Civilians")) := by
  simp only [GameState.check_game_over]
  cases hw : gs.alive_wolves with
  | nil => simp
  | cons w ws =>
    cases hc : gs.alive_civilians with
    | nil => simp
    | cons c cs =>
      simp only [List.isEmpty_cons, List.length_cons]
      split_ifs with h <;> simp_all [Prod.ext_iff]

/-- Witness for C1: on the simultaneous-wipe state the degenerate branch of
`check_game_over_spec` yields a Civilians verdict. -/
theorem check_game_over_spec_w :
    gsAllDead.check_game_over = (true, "Civilians") :=
  (check_game_over_spec gsAllDead).2.2 (by decide) (by decide)

/-- C1 counterexample: with zero alive wolves and zero alive civilians the
code answers `(true, "Civilians")`, not the claimed `(true, "Wolves")`. -/
theorem check_game_over_mutual_wipe_cex :
    gsAllDead.alive_wolves.length = 0 ∧ gsAllDead.alive_civilians.length = 0 ∧
    gsAllDead.check_game_over = (true, "Civilians") ∧
    ¬ gsAllDead.check_game_over = (true, "Wolves") := by decide

/-- C2: the constructor guard of `GameState.__init__` accepts every count in
3–15 and rejects only counts below 3 or above 15: `num_players = 5` (and 3
and 4) builds a state even though the claim, the method's docstring and its
own error message require 6–15, while 16 and 2 are rejected. -/
theorem num_players_guard_bug :
    (initGameState 5 (rolesList 5) ["Ann", "Bob", "Cal", "Dee", "Eli"]).isSome = true ∧
    (initGameState 4 (rolesList 4) ["Ann", "Bob", "Cal", "Dee"]).isSome = true ∧
    (initGameState 3 (rolesList 3) ["Ann", "Bob", "Cal"]).isSome = true ∧
    (initGameState 16 (rolesList 16) []).isSome = false ∧
    (initGameState 2 (rolesList 2) []).isSome = false ∧
    numPlayersAccepted 5 = true ∧ numPlayersAccepted 16 = false := by decide

/-- C4 (amended): the speaker queue built by `update_speaking_order` holds
only players alive and non-moderator at build time; consuming the queue
(`get_next_speaker`) only ever removes the front and never re-adds; but
`kill_player` rebuilds the queue from all currently alive non-moderator
players, so every alive non-moderator survivor — including entries already
consumed earlier the same day — is back in the queue after a mid-day
elimination. -/
theorem speaker_queue_spec :
    (∀ gs : GameState, ∀ nm ∈ gs.update_speaking_order.speaker_queue,
      ∃ p ∈ gs.players, p.name = nm ∧ p.is_alive = true ∧ p.role ≠ Role.GOD) ∧
    (∀ gs : GameState, (gs.get_next_speaker).2.speaker_queue = gs.speaker_queue.tail) ∧
    (∀ (gs : GameState) (pid : String) (p : Player),
      gs.players.any (fun q => q.name == pid) = true →
      p ∈ gs.players → p.name ≠ pid → p.is_alive = true → p.role ≠ Role.GOD →
      p.name ∈ (gs.kill_player pid).speaker_queue) := by
  refine ⟨?_, ?_, ?_⟩
  · intro gs nm hmem
    simp only [GameState.update_speaking_order, speakingOrder, List.mem_map,
      List.mem_filter, Bool.and_eq_true] at hmem
    obtain ⟨p, ⟨hp, ha, hg⟩, rfl⟩ := hmem
    refine ⟨p, hp, rfl, ha, ?_⟩
    simpa [Player.is_god] using hg
  · intro gs
    cases h : gs.speaker_queue <;> simp [GameState.get_next_speaker, h]
  · intro gs pid p hany hp hne ha hg
    unfold GameState.kill_player
    rw [if_pos hany]
    simp only [GameState.mapPlayer, GameState.update_speaking_order, speakingOrder]
    refine List.mem_map.mpr ⟨p, List.mem_filter.mpr ⟨?_, ?_⟩, rfl⟩
    · have hfix : (fun q => if q.name == pid then { q with is_alive := false } else q) p = p := by
        simp [hne]
      exact hfix ▸ List.mem_map_of_mem _ hp
    · simp [ha, Player.is_god, hg]

/-- Witness for C4: on the demo state, after the moderator-free rebuild
triggered by killing `"Bob"`, the already-consumed `"Ann"` is in the queue
again. -/
theorem speaker_queue_spec_w :
    (⟨0, "Ann", Role.CIVILIAN, true, 0, none⟩ : Player).name ∈
      (gsDemo.kill_player "Bob").speaker_queue :=
  speaker_queue_spec.2.2 gsDemo "Bob" ⟨0, "Ann", Role.CIVILIAN, true, 0, none⟩
    (by decide) (by decide) (by decide) (by decide) (by decide)

/-- C4 counterexample: `"Ann"` is consumed from the front of the queue, and
killing `"Bob"` the same day (the day counter does not move) puts `"Ann"`
back into the speaker queue. -/
theorem speaker_requeue_cex :
    (gsDemo.get_next_speaker).1 = some "Ann" ∧
    "Ann" ∉ ((gsDemo.get_next_speaker).2).speaker_queue ∧
    ((gsDemo.get_next_speaker).2).day_count = gsDemo.day_count ∧
    "Ann" ∈ (((gsDemo.get_next_speaker).2).kill_player "Bob").speaker_queue ∧
    ((((gsDemo.get_next_speaker).2).kill_player "Bob")).day_count = gsDemo.day_count := by
  decide

/-- C10: `execute_night_kill` succeeds iff some roster player's name equals
the target exactly; on success it clears that player's alive flag and
appends exactly one history line, regardless of the target's role or prior
alive status; every other roster entry and every other state field —
including the speaker queue, which `kill_player` would have rebuilt — is
unchanged, and on failure the state is untouched. -/
theorem execute_night_kill_spec (gs : GameState) (target_name : String) :
    ((execute_night_kill gs target_name).1 = true ↔
      ∃ p ∈ gs.players, p.name = target_name) ∧
    ((execute_night_kill gs target_name).1 = true →
      (execute_night_kill gs target_name).2.game_history =
        gs.game_history ++ [target_name ++ " was killed by wolves"]) ∧
    (∀ (i : Nat) (p : Player), gs.players[i]? = some p → p.name ≠ target_name →
      (execute_night_kill gs target_name).2.players[i]? = some p) ∧
    (∀ (i : Nat) (p : Player), gs.players[i]? = some p → p.name = target_name →
      (execute_night_kill gs target_name).2.players[i]? =
        some { p with is_alive := false }) ∧
    (execute_night_kill gs target_name).2.speaker_queue = gs.speaker_queue ∧
    (execute_night_kill gs target_name).2.current_phase = gs.current_phase ∧
    (execute_night_kill gs target_name).2.day_count = gs.day_count ∧
    (execute_night_kill gs target_name).2.voting_enabled = gs.voting_enabled ∧
    (execute_night_kill gs target_name).2.night_kill_target = gs.night_kill_target ∧
    (execute_night_kill gs target_name).2.num_players = gs.num_players ∧
    ((execute_night_kill gs target_name).1 = false →
      (execute_night_kill gs target_name).2 = gs) := by
  unfold execute_night_kill
  by_cases hany : gs.players.any (fun p => p.name == target_name) = true
  · rw [if_pos hany]
    simp only [List.any_eq_true, beq_iff_eq] at hany
    refine ⟨by simpa using hany, fun _ => rfl, ?_, ?_, rfl, rfl, rfl, rfl, rfl, rfl,
      by simp⟩
    · intro i p hip hne
      simp [List.getElem?_map, hip, hne]
    · intro i p hip heq
      simp [List.getElem?_map, hip, heq]
  · rw [if_neg hany]
    simp only [List.any_eq_true, beq_iff_eq, not_exists] at hany
    push_neg at hany
    refine ⟨by simpa using fun p hp h => hany p hp h, by simp, ?_, ?_, rfl, rfl, rfl,
      rfl, rfl, rfl, fun _ => rfl⟩
    · intro i p hip _
      exact hip
    · intro i p hip heq
      exact absurd heq (hany p (List.getElem?_mem hip))

theorem map_getD_range {α : Type} (l : List α) (d : α) :
    (List.range l.length).map (fun i => l.getD i d) = l := by
  induction l with
  | nil => rfl
  | cons a l ih =>
    rw [List.length_cons, List.range_succ_eq_map, List.map_cons, List.map_map]
    have hcomp : ((fun i => (a :: l).getD i d) ∘ Nat.succ) = fun i => l.getD i d := by
      funext i
      rfl
    rw [hcomp, ih]
    rfl

theorem buildPlayers_eq (roles : List Role) (names : List String) (n : Nat)
    (hd : ∀ j, j < n → ∀ i, i < j → names.getD i "" ≠ names.getD j "") :
    buildPlayers roles names n =
      (List.range n).map
        (fun i => Player.mk0 i (names.getD i "") (roles.getD i Role.CIVILIAN)) := by
  induction n with
  | zero => rfl
  | succ n ih =>
    have hd' : ∀ j, j < n → ∀ i, i < j → names.getD i "" ≠ names.getD j "" :=
      fun j hj i hi => hd j (Nat.lt_succ_of_lt hj) i hi
    unfold buildPlayers
    rw [List.range_succ, List.foldl_append]
    have hprev : (List.range n).foldl
        (fun ps i => dictInsert ps
          (Player.mk0 i (names.getD i "") (roles.getD i Role.CIVILIAN))) [] =
        (List.range n).map
          (fun i => Player.mk0 i (names.getD i "") (roles.getD i Role.CIVILIAN)) := ih hd'
    rw [hprev]
    rw [List.foldl_cons, List.foldl_nil]
    have hnot : ¬((((List.range n).map
        (fun i => Player.mk0 i (names.getD i "") (roles.getD i Role.CIVILIAN))).any
          (fun q => q.name ==
            (Player.mk0 n (names.getD n "") (roles.getD n Role.CIVILIAN)).name)) = true) := by
      intro hcontra
      simp only [List.any_eq_true, List.mem_map, List.mem_range] at hcontra
      obtain ⟨q, ⟨i, hi, rfl⟩, hqe⟩ := hcontra
      exact hd n (Nat.lt_succ_self n) i hi (by simpa [Player.mk0] using hqe)
    rw [dictInsert, if_neg hnot]
    rw [List.map_append]
    rfl

theorem countRole_buildPlayers (roles : List Role) (names : List String) (n : Nat)
    (hd : ∀ j, j < n → ∀ i, i < j → names.getD i "" ≠ names.getD j "")
    (hlen : roles.length = n) (r : Role) :
    countRole (buildPlayers roles names n) r = roles.count r := by
  rw [countRole, buildPlayers_eq roles names n hd, List.map_map]
  have : ((fun p : Player => p.role) ∘
      (fun i => Player.mk0 i (names.getD i "") (roles.getD i Role.CIVILIAN))) =
        fun i => roles.getD i Role.CIVILIAN := rfl
  rw [this, ← hlen, map_getD_range]

theorem count_rolesList (n : Nat) :
    (rolesList n).count Role.WOLF = numWolves n ∧
    (rolesList n).count Role.GOD = 1 ∧
    (rolesList n).count Role.CIVILIAN = numCivilians n := by
  refine ⟨?_, ?_, ?_⟩ <;>
    simp [rolesList, List.count_append, List.count_replicate]

/-- C5: for every valid `num_players` in 6–15, any shuffle of the role
multiset and any collision-free name sequence, the constructed roster has
exactly one moderator, exactly `max 1 (n / 5)` wolves (the float expression
`int(n * 0.2)` truncates identically to `n / 5` for all `n ≤ 15`), exactly
`n - wolves - 1` civilians, and at least one wolf. -/
theorem role_assignment_counts (n : Nat) (h6 : 6 ≤ n) (h15 : n ≤ 15)
    (roles : List Role) (hp : roles.Perm (rolesList n))
    (names : List String)
    (hd : ∀ j, j < n → ∀ i, i < j → names.getD i "" ≠ names.getD j "") :
    ∃ gs : GameState, initGameState n roles names = some gs ∧
      countRole gs.players Role.GOD = 1 ∧
      countRole gs.players Role.WOLF = max 1 (n / 5) ∧
      countRole gs.players Role.CIVILIAN = n - max 1 (n / 5) - 1 ∧
      1 ≤ countRole gs.players Role.WOLF := by
  have hlen : roles.length = n := by
    have hl := hp.length_eq
    simp only [rolesList, List.length_append, List.length_replicate] at hl
    have hw : numWolves n ≤ n - 1 := by
      simp only [numWolves]
      omega
    simp only [numCivilians] at hl
    omega
  have hguard : ¬((n < 3 || n > 15) = true) := by
    simp only [Bool.or_eq_true, decide_eq_true_eq, not_or]
    omega
  refine ⟨{ num_players := n
            players := buildPlayers roles names n
            current_phase := GamePhase.DAY
            day_count := 1
            speaker_queue := speakingOrder (buildPlayers roles names n)
            game_history := []
            night_kill_target := none
            voting_enabled := false }, ?_, ?_, ?_, ?_, ?_⟩
  · unfold initGameState
    rw [if_neg hguard]
  all_goals
    simp only [countRole_buildPlayers roles names n hd hlen, hp.count_eq]
  · exact (count_rolesList n).2.1
  · rw [(count_rolesList n).1]; rfl
  · rw [(count_rolesList n).2.2]; rfl
  · rw [(count_rolesList n).1]
    exact Nat.le_max_left 1 (n / 5)

/-- Witness for C5: ten players with the identity shuffle and ten distinct
names — one moderator, two wolves, seven civilians. -/
theorem role_assignment_counts_w :
    ∃ gs : GameState,
      initGameState 10 (rolesList 10)
        ["Ann", "Bob", "Cal", "Dee", "Eli", "Fay", "Gus", "Hal", "Ivy", "Joe"] = some gs ∧
      countRole gs.players Role.GOD = 1 ∧
      countRole gs.players Role.WOLF = max 1 (10 / 5) ∧
      countRole gs.players Role.CIVILIAN = 10 - max 1 (10 / 5) - 1 ∧
      1 ≤ countRole gs.players Role.WOLF :=
  role_assignment_counts 10 (by decide) (by decide) (rolesList 10) (List.Perm.refl _)
    ["Ann", "Bob", "Cal", "Dee", "Eli", "Fay", "Gus", "Hal", "Ivy", "Joe"] (by decide)

/-- C6: the roster loop `self.players[player_name] = Player(...)` resolves a
name collision by overwriting the existing dictionary entry, not by
regenerating a fresh name: when the generator emits `"Ava"` twice in a
six-player game, the roster ends with five players and the wolf assigned
the first `"Ava"` is silently lost (zero wolves survive in the roster),
while `num_players` still records six. -/
theorem name_collision_cex :
    (initGameState 6 (rolesList 6) ["Ava", "Ava", "Ben", "Cal", "Dee", "Eli"]).map
        (fun gs => (gs.players.length, countRole gs.players Role.WOLF,
          gs.players.map (fun p => p.name), gs.num_players)) =
      some (5, 0, ["Ava", "Ben", "Cal", "Dee", "Eli"], 6) := by decide

theorem getD_mem {l : List String} {i : Nat} (h : i < l.length) : l.getD i "" ∈ l := by
  rw [List.getD_eq_getElem l "" h]
  exact List.getElem_mem h

theorem tied_sub {l : List Player} {m0 : Int} {nm : String}
    (hmem : nm ∈ ((l.map (fun p => (p.name, p.votes_received))).filter
      (fun x => x.2 == m0)).map (fun x => x.1)) :
    ∃ p ∈ l, p.name = nm ∧ p.votes_received = m0 := by
  simp only [List.mem_map, List.mem_filter, beq_iff_eq] at hmem
  obtain ⟨x, ⟨⟨p, hp, hpx⟩, hx2⟩, hx1⟩ := hmem
  subst hpx
  exact ⟨p, hp, hx1, hx2⟩

theorem tied_mem_of {l : List Player} {m0 : Int} {p : Player}
    (hp : p ∈ l) (hv : p.votes_received = m0) :
    p.name ∈ ((l.map (fun q => (q.name, q.votes_received))).filter
      (fun x => x.2 == m0)).map (fun x => x.1) := by
  simp only [List.mem_map, List.mem_filter, beq_iff_eq]
  exact ⟨(p.name, p.votes_received), ⟨⟨p, hp, rfl⟩, hv⟩, rfl⟩

theorem gvr_empty (gs : GameState) (k : Nat)
    (hce : gs.players.filter (fun p => p.is_alive && !p.is_god) = []) :
    (gs.get_vote_results k).1 = none := by
  simp [GameState.get_vote_results, hce]

theorem gvr_zero (gs : GameState) (k : Nat) (c : Player) (cs : List Player)
    (hcl : gs.players.filter (fun p => p.is_alive && !p.is_god) = c :: cs)
    (hm0 : (((c :: cs).map (fun p => (p.name, p.votes_received))).map
      (fun x => x.2)).max? = some 0) :
    (gs.get_vote_results k).1 = none := by
  simp only [GameState.get_vote_results, hcl]
  rw [show (((c :: cs).map (fun p => (p.name, p.votes_received))).isEmpty) = false from rfl]
  rw [hm0]
  simp only [Bool.false_eq_true, if_false, Option.getD_some]
  rw [if_pos (by decide)]

theorem gvr_some (gs : GameState) (k : Nat) (c : Player) (cs : List Player)
    (hcl : gs.players.filter (fun p => p.is_alive && !p.is_god) = c :: cs)
    (m0 : Int)
    (hm0 : (((c :: cs).map (fun p => (p.name, p.votes_received))).map
      (fun x => x.2)).max? = some m0)
    (hz : ¬((m0 == 0) = true)) :
    ∃ tied : List String,
      tied = (((c :: cs).map (fun p => (p.name, p.votes_received))).filter
        (fun x => x.2 == m0)).map (fun x => x.1) ∧
      (gs.get_vote_results k).1 =
        some (if 1 < tied.length then tied.getD (k % tied.length) "" else tied.getD 0 "") := by
  refine ⟨_, rfl, ?_⟩
  simp only [GameState.get_vote_results, hcl]
  rw [show (((c :: cs).map (fun p => (p.name, p.votes_received))).isEmpty) = false from rfl]
  rw [hm0]
  simp only [Bool.false_eq_true, if_false, Option.getD_some]
  rw [if_neg hz]
  by_cases h3 : 1 < ((((c :: cs).map (fun p => (p.name, p.votes_received))).filter
      (fun x => x.2 == m0)).map (fun x => x.1)).length
  · rw [if_pos h3, if_pos h3]
  · rw [if_neg h3, if_neg h3]

/-- C7: `get_vote_results` counts only alive non-moderator players; it
returns `none` iff there are no such players or every counted tally is
zero; otherwise it returns a counted player whose tally is positive and
maximal, and every player tied at the maximum is a possible outcome of the
`random.choice` draw (modelled by the index parameter). -/
theorem get_vote_results_spec (gs : GameState) (choice : Nat)
    (hnn : ∀ p ∈ gs.players, 0 ≤ p.votes_received) :
    ((gs.get_vote_results choice).1 = none ↔
      (gs.players.filter (fun p => p.is_alive && !p.is_god) = [] ∨
        ∀ p ∈ gs.players.filter (fun p => p.is_alive && !p.is_god),
          p.votes_received = 0)) ∧
    (∀ nm, (gs.get_vote_results choice).1 = some nm →
      ∃ p ∈ gs.players.filter (fun p => p.is_alive && !p.is_god),
        p.name = nm ∧ 0 < p.votes_received ∧
        ∀ q ∈ gs.players.filter (fun p => p.is_alive && !p.is_god),
          q.votes_received ≤ p.votes_received) ∧
    (∀ p ∈ gs.players.filter (fun p => p.is_alive && !p.is_god),
      0 < p.votes_received →
      (∀ q ∈ gs.players.filter (fun p => p.is_alive && !p.is_god),
        q.votes_received ≤ p.votes_received) →
      ∃ k, (gs.get_vote_results k).1 = some p.name) := by
  refine ⟨?_, ?_, ?_⟩
  · -- part (a)
    rcases hcl : gs.players.filter (fun p => p.is_alive && !p.is_god) with _ | ⟨c, cs⟩
    · simp [gvr_empty gs choice hcl, hcl]
    · obtain ⟨m0, hm0⟩ : ∃ m0, (((c :: cs).map (fun p => (p.name, p.votes_received))).map
          (fun x => x.2)).max? = some m0 := by
        cases hmm : (((c :: cs).map (fun p => (p.name, p.votes_received))).map
            (fun x => x.2)).max? with
        | none => rw [List.max?_eq_none_iff] at hmm; simp at hmm
        | some m => exact ⟨m, rfl⟩
      have hm0' : ((c :: cs).map (fun p => p.votes_received)).max? = some m0 := by
        rw [← hm0, List.map_map]
        rfl
      obtain ⟨hm0mem, hm0max⟩ := int_max?_eq_some_iff.mp hm0'
      constructor
      · intro hnone
        by_cases hz : m0 = 0
        · refine Or.inr ?_
          rw [hcl]
          intro p hp
          have hle : p.votes_received ≤ m0 :=
            hm0max _ (List.mem_map_of_mem _ hp)
          have hge : 0 ≤ p.votes_received := by
            have hpf : p ∈ gs.players.filter (fun q => q.is_alive && !q.is_god) := by
              rw [hcl]
              exact hp
            exact hnn p (List.mem_of_mem_filter hpf)
          omega
        · exfalso
          obtain ⟨tied, -, hres⟩ :=
            gvr_some gs choice c cs hcl m0 hm0 (by simpa using hz)
          rw [hres] at hnone
          simp at hnone
      · intro h
        rcases h with hce | hall
        · rw [hcl] at hce
          simp at hce
        · have hz : m0 = 0 := by
            obtain ⟨q, hq, hqv⟩ := List.mem_map.mp hm0mem
            rw [← hqv]
            apply hall
            rw [hcl]
            exact hq
          subst hz
          exact gvr_zero gs choice c cs hcl hm0
  · -- part (b)
    intro nm hnm
    rcases hcl : gs.players.filter (fun p => p.is_alive && !p.is_god) with _ | ⟨c, cs⟩
    · rw [gvr_empty gs choice hcl] at hnm
      simp at hnm
    · obtain ⟨m0, hm0⟩ : ∃ m0, (((c :: cs).map (fun p => (p.name, p.votes_received))).map
          (fun x => x.2)).max? = some m0 := by
        cases hmm : (((c :: cs).map (fun p => (p.name, p.votes_received))).map
            (fun x => x.2)).max? with
        | none => rw [List.max?_eq_none_iff] at hmm; simp at hmm
        | some m => exact ⟨m, rfl⟩
      have hm0' : ((c :: cs).map (fun p => p.votes_received)).max? = some m0 := by
        rw [← hm0, List.map_map]
        rfl
      obtain ⟨hm0mem, hm0max⟩ := int_max?_eq_some_iff.mp hm0'
      by_cases hz : m0 = 0
      · subst hz
        rw [gvr_zero gs choice c cs hcl hm0] at hnm
        simp at hnm
      · obtain ⟨tied, htied, hres⟩ :=
          gvr_some gs choice c cs hcl m0 hm0 (by simpa using hz)
        rw [hres] at hnm
        have hnm' : (if 1 < tied.length then tied.getD (choice % tied.length) ""
            else tied.getD 0 "") = nm := Option.some.inj hnm
        obtain ⟨pm, hpm, hpmv⟩ : ∃ q ∈ c :: cs, q.votes_received = m0 := by
          obtain ⟨q, hq, hqv⟩ := List.mem_map.mp hm0mem
          exact ⟨q, hq, hqv⟩
        have htne : tied ≠ [] := by
          have hmem := tied_mem_of hpm hpmv
          rw [← htied] at hmem
          exact List.ne_nil_of_mem hmem
        have hlen0 : 0 < tied.length := List.length_pos.mpr htne
        have hnmmem : nm ∈ tied := by
          rw [← hnm']
          by_cases h3 : 1 < tied.length
          · rw [if_pos h3]
            exact getD_mem (Nat.mod_lt _ (by omega))
          · rw [if_neg h3]
            exact getD_mem (by omega)
        rw [htied] at hnmmem
        obtain ⟨p, hp, hpname, hpv⟩ := tied_sub hnmmem
        have hge0 : 0 ≤ m0 := by
          have hpf : pm ∈ gs.players.filter (fun q => q.is_alive && !q.is_god) := by
            rw [hcl]
            exact hpm
          have := hnn pm (List.mem_of_mem_filter hpf)
          omega
        refine ⟨p, by rw [hcl]; exact hp, hpname, by omega, ?_⟩
        intro q hq
        rw [hcl] at hq
        have := hm0max _ (List.mem_map_of_mem _ hq)
        omega
  · -- part (c)
    intro p hp hpos hmax
    rcases hcl : gs.players.filter (fun p => p.is_alive && !p.is_god) with _ | ⟨c, cs⟩
    · rw [hcl] at hp
      simp at hp
    · rw [hcl] at hp
      obtain ⟨m0, hm0⟩ : ∃ m0, (((c :: cs).map (fun p => (p.name, p.votes_received))).map
          (fun x => x.2)).max? = some m0 := by
        cases hmm : (((c :: cs).map (fun p => (p.name, p.votes_received))).map
            (fun x => x.2)).max? with
        | none => rw [List.max?_eq_none_iff] at hmm; simp at hmm
        | some m => exact ⟨m, rfl⟩
      have hm0' : ((c :: cs).map (fun p => p.votes_received)).max? = some m0 := by
        rw [← hm0, List.map_map]
        rfl
      obtain ⟨hm0mem, hm0max⟩ := int_max?_eq_some_iff.mp hm0'
      have hple : p.votes_received ≤ m0 := hm0max _ (List.mem_map_of_mem _ hp)
      have hmle : m0 ≤ p.votes_received := by
        obtain ⟨q, hq, hqv⟩ := List.mem_map.mp hm0mem
        rw [← hqv]
        apply hmax
        rw [hcl]
        exact hq
      have hpm0 : p.votes_received = m0 := by omega
      have hz : ¬((m0 == 0) = true) := by
        simp only [beq_iff_eq]
        omega
      have hmem := tied_mem_of hp hpm0
      obtain ⟨i, hi, hieq⟩ := List.mem_iff_getElem.mp hmem
      by_cases h3 : 1 < ((((c :: cs).map (fun q => (q.name, q.votes_received))).filter
          (fun x => x.2 == m0)).map (fun x => x.1)).length
      · refine ⟨i, ?_⟩
        obtain ⟨tied, htied, hres⟩ := gvr_some gs i c cs hcl m0 hm0 hz
        rw [hres]
        subst htied
        rw [if_pos h3]
        rw [Nat.mod_eq_of_lt hi, List.getD_eq_getElem _ _ hi, hieq]
      · refine ⟨0, ?_⟩
        obtain ⟨tied, htied, hres⟩ := gvr_some gs 0 c cs hcl m0 hm0 hz
        rw [hres]
        subst htied
        rw [if_neg h3]
        have hi0 : i = 0 := by omega
        subst hi0
        rw [List.getD_eq_getElem _ _ hi, hieq]

/-- Witness for C7: on the demo state every tally is zero, so the tally
returns `none` through the all-zero branch of the specification. -/
theorem get_vote_results_spec_w :
    (gsDemo.get_vote_results 0).1 = none :=
  (get_vote_results_spec gsDemo 0 (by decide)).1.mpr (Or.inr (by decide))

theorem reset_votes_fields (gs : GameState) :
    ∀ p ∈ gs.reset_votes.players, p.votes_received = 0 ∧ p.vote_target = none := by
  intro p hp
  simp only [GameState.reset_votes, List.mem_map] at hp
  obtain ⟨q, -, rfl⟩ := hp
  exact ⟨rfl, rfl⟩

theorem rvp_shape (gs0 : GameState) (responses : List (Option String)) (choice : Nat) :
    ((run_voting_phase gs0 responses choice).1.error = none ∧
      ∃ gsV : GameState, (run_voting_phase gs0 responses choice).2 = gsV.reset_votes) ∨
    (run_voting_phase gs0 responses choice).1 =
      { votes := [], vote_counts := [], eliminated := none, error := some "error" } := by
  simp only [run_voting_phase]
  set E := (gs0.players.filter (fun p => p.is_alive && !p.is_god)).map (fun p => p.name)
    with hE
  cases hcv : collectVotes gs0 E E responses [] with
  | error gsE => exact Or.inr rfl
  | ok pr =>
    obtain ⟨gsV, proc⟩ := pr
    dsimp only
    cases hres : gsV.get_vote_results choice with
    | mk elim counts =>
      cases elim with
      | none => exact Or.inl ⟨rfl, gsV, rfl⟩
      | some pid =>
        dsimp only
        by_cases hpid : (pid == "") = true
        · rw [if_pos hpid]
          exact Or.inl ⟨rfl, gsV, rfl⟩
        · rw [if_neg hpid]
          cases hfp : gsV.findPlayer pid with
          | none => exact Or.inr rfl
          | some pObj =>
            exact Or.inl ⟨rfl, _, rfl⟩

/-- C3 (amended): at the end of every voting round that completes without a
fault — whether or not a player was eliminated — every player's tally is
zero and every vote target is cleared; when an unexpected fault occurs the
round returns an empty result (no elimination, empty vote list and tally
dictionary), but the votes already recorded before the fault are left in
place: `reset_votes` is not executed on the fault path. -/
theorem run_voting_phase_reset (gs0 : GameState) (responses : List (Option String))
    (choice : Nat) :
    ((run_voting_phase gs0 responses choice).1.error = none →
      ∀ p ∈ (run_voting_phase gs0 responses choice).2.players,
        p.votes_received = 0 ∧ p.vote_target = none) ∧
    ((run_voting_phase gs0 responses choice).1.error ≠ none →
      (run_voting_phase gs0 responses choice).1.eliminated = none ∧
      (run_voting_phase gs0 responses choice).1.votes = [] ∧
      (run_voting_phase gs0 responses choice).1.vote_counts = []) := by
  rcases rvp_shape gs0 responses choice with ⟨hnone, gsV, heq⟩ | herr
  · refine ⟨fun _ p hp => ?_, fun hne => absurd hnone hne⟩
    rw [heq] at hp
    exact reset_votes_fields gsV p hp
  · refine ⟨fun hnone => ?_, fun _ => ?_⟩
    · rw [herr] at hnone
      simp at hnone
    · rw [herr]
      exact ⟨rfl, rfl, rfl⟩

/-- Witness for C3: a fault-free round on the demo state (everyone votes
`"Bob"`, who is eliminated) ends with `"Bob"`'s roster entry showing a zero
tally and no vote target. -/
theorem run_voting_phase_reset_w :
    (⟨1, "Bob", Role.CIVILIAN, false, 0, none⟩ : Player).votes_received = 0 ∧
    (⟨1, "Bob", Role.CIVILIAN, false, 0, none⟩ : Player).vote_target = none :=
  (run_voting_phase_reset gsDemo [some "Bob", some "Bob", some "Bob", some "Bob"] 0).1
    (by decide) ⟨1, "Bob", Role.CIVILIAN, false, 0, none⟩ (by decide)

/-- C3 counterexample: `"Ann"` votes for `"Bob"`, then the next voter's
agent call raises.  The round reports an error with no elimination, but
`"Bob"` still carries a nonzero tally afterwards — the fault path does not
clear partial vote state, contradicting the claim that every tally is zero
after a faulted round. -/
theorem run_voting_phase_fault_cex :
    ((run_voting_phase gsDemo [some "Bob", none] 0).1.error).isSome = true ∧
    (run_voting_phase gsDemo [some "Bob", none] 0).1.eliminated = none ∧
    (run_voting_phase gsDemo [some "Bob", none] 0).1.votes = [] ∧
    (run_voting_phase gsDemo [some "Bob", none] 0).2.players.map
      (fun p => p.votes_received) = [0, 1, 0, 0, 0, 0] ∧
    (run_voting_phase gsDemo [some "Bob", none] 0).2.players.map
      (fun p => p.vote_target) = [some "Bob", none, none, none, none, none] := by decide

/-- Witness for C10: killing the moderator `"Gil"` (a target of arbitrary
role) through `execute_night_kill` on the demo state flips exactly that
entry's alive flag. -/
theorem execute_night_kill_spec_w :
    (execute_night_kill gsDemo "Gil").2.players[3]? =
      some ⟨3, "Gil", Role.GOD, false, 0, none⟩ :=
  (execute_night_kill_spec gsDemo "Gil").2.2.2.1 3
    ⟨3, "Gil", Role.GOD, true, 0, none⟩ (by decide) (by decide)

theorem findPlayer_mapPlayer (gs : GameState) (nm x : String) (f : Player → Player)
    (hf : ∀ p, (f p).name = p.name) :
    (gs.mapPlayer nm f).findPlayer x =
      (gs.findPlayer x).map (fun p => if p.name == nm then f p else p) := by
  have hpred : ((fun p : Player => p.name == x) ∘
      (fun q : Player => if q.name == nm then f q else q)) =
        fun q : Player => q.name == x := by
    funext q
    by_cases h : q.name == nm <;> simp [Function.comp, h, hf]
  simp only [GameState.findPlayer, GameState.mapPlayer]
  rw [List.find?_map, hpred]

theorem findPlayer_mapInc (gs : GameState) (nm x : String) :
    (gs.mapPlayer nm
        (fun p => { p with votes_received := p.votes_received + 1 })).findPlayer x =
      (gs.findPlayer x).map
        (fun p => if p.name == nm
          then { p with votes_received := p.votes_received + 1 } else p) :=
  findPlayer_mapPlayer gs nm x
    (fun p => { p with votes_received := p.votes_received + 1 }) (fun _ => rfl)

theorem findPlayer_mapDec (gs : GameState) (nm x : String) :
    (gs.mapPlayer nm
        (fun p => { p with votes_received := p.votes_received - 1 })).findPlayer x =
      (gs.findPlayer x).map
        (fun p => if p.name == nm
          then { p with votes_received := p.votes_received - 1 } else p) :=
  findPlayer_mapPlayer gs nm x
    (fun p => { p with votes_received := p.votes_received - 1 }) (fun _ => rfl)

theorem findPlayer_mapTgt (gs : GameState) (nm x t : String) :
    (gs.mapPlayer nm (fun p => { p with vote_target := some t })).findPlayer x =
      (gs.findPlayer x).map
        (fun p => if p.name == nm then { p with vote_target := some t } else p) :=
  findPlayer_mapPlayer gs nm x (fun p => { p with vote_target := some t }) (fun _ => rfl)

theorem findPlayer_name (gs : GameState) (x : String) (p : Player)
    (h : gs.findPlayer x = some p) : p.name = x := by
  have hs := List.find?_some (p := fun q : Player => q.name == x) (by simpa [GameState.findPlayer] using h)
  simpa using hs

theorem vote_unfold (gs : GameState) (v t : String) (pv pt : Player)
    (hfv : gs.findPlayer v = some pv) (hft : gs.findPlayer t = some pt)
    (hav : pv.is_alive = true) (hat : pt.is_alive = true) :
    gs.vote_for_player v t =
      ((match pv.vote_target with
        | some prior =>
          if prior == "" then gs
          else gs.mapPlayer prior
            (fun p => { p with votes_received := p.votes_received - 1 })
        | none => gs).mapPlayer v (fun p => { p with vote_target := some t })).mapPlayer t
        (fun p => { p with votes_received := p.votes_received + 1 }) := by
  simp only [GameState.vote_for_player, hfv, hft, hav, hat, Bool.and_self, if_true]

theorem vote_noop (gs : GameState) (v t : String) (h : bothAlive gs v t = false) :
    gs.vote_for_player v t = gs := by
  cases hfv : gs.findPlayer v with
  | none => simp [GameState.vote_for_player, hfv]
  | some pv =>
    cases hft : gs.findPlayer t with
    | none => simp [GameState.vote_for_player, hfv, hft]
    | some pt =>
      simp only [bothAlive, hfv, hft] at h
      simp [GameState.vote_for_player, hfv, hft, h]

theorem vote_fresh (gs : GameState) (v t : String) (pv pt : Player)
    (hfv : gs.findPlayer v = some pv) (hft : gs.findPlayer t = some pt)
    (hav : pv.is_alive = true) (hat : pt.is_alive = true)
    (hfresh : pv.vote_target = none) :
    (gs.vote_for_player v t).players.map (fun p => p.votes_received) =
      gs.players.map
        (fun p => if p.name == t then p.votes_received + 1 else p.votes_received) := by
  rw [vote_unfold gs v t pv pt hfv hft hav hat, hfresh]
  simp only [GameState.mapPlayer, List.map_map]
  apply List.map_congr_left
  intro q _
  obtain ⟨qid, qnm, qr, qa, qv, qt⟩ := q
  simp only [Function.comp]
  by_cases h1 : qnm == v <;> by_cases h2 : qnm == t <;> simp [h1, h2]

theorem revote_after (gsb : GameState) (v t1 t2 : String)
    (pvb : Player) (hfv : gsb.findPlayer v = some pvb) (hav : pvb.is_alive = true)
    (p2b : Player) (hf2 : gsb.findPlayer t2 = some p2b) (ha2 : p2b.is_alive = true)
    (ht1 : t1 ≠ "") :
    ((gsb.mapPlayer v (fun p => { p with vote_target := some t1 })).mapPlayer t1
        (fun p => { p with votes_received := p.votes_received + 1 })).vote_for_player v t2 =
      (gsb.mapPlayer v (fun p => { p with vote_target := some t2 })).mapPlayer t2
        (fun p => { p with votes_received := p.votes_received + 1 }) := by
  have hnv : pvb.name = v := findPlayer_name gsb v pvb hfv
  obtain ⟨pA, hAv, hAalive, hAtgt⟩ :
      ∃ pA, ((gsb.mapPlayer v (fun p => { p with vote_target := some t1 })).mapPlayer t1
          (fun p => { p with votes_received := p.votes_received + 1 })).findPlayer v =
            some pA ∧ pA.is_alive = true ∧ pA.vote_target = some t1 := by
    rw [findPlayer_mapInc, findPlayer_mapTgt, hfv]
    refine ⟨_, rfl, ?_, ?_⟩ <;>
      simp only [Option.map_some', hnv, beq_self_eq_true, if_true] <;>
        split <;> simp [hav]
  obtain ⟨pA2, hAt2, hA2alive⟩ :
      ∃ pA2, ((gsb.mapPlayer v (fun p => { p with vote_target := some t1 })).mapPlayer t1
          (fun p => { p with votes_received := p.votes_received + 1 })).findPlayer t2 =
            some pA2 ∧ pA2.is_alive = true := by
    rw [findPlayer_mapInc, findPlayer_mapTgt, hf2]
    refine ⟨_, rfl, ?_⟩
    dsimp only
    split <;> split <;> simp [ha2]
  rw [vote_unfold _ v t2 pA pA2 hAv hAt2 hAalive hA2alive]
  simp only [hAtgt]
  rw [if_neg (show ¬((t1 == "") = true) by simpa using ht1)]
  obtain ⟨np, ps, cp, dc, sq, gh, nkt, ve⟩ := gsb
  simp only [GameState.mapPlayer, List.map_map]
  congr 1
  apply List.map_congr_left
  intro q _
  obtain ⟨qid, qnm, qr, qa, qv, qt⟩ := q
  simp only [Function.comp]
  by_cases h1 : qnm == v <;> by_cases h2 : qnm == t1 <;> by_cases h3 : qnm == t2 <;>
    simp [h1, h2, h3, Player.mk.injEq]

theorem revote_main (gs : GameState) (v t1 t2 : String)
    (hb1 : bothAlive gs v t1 = true) (hb2 : bothAlive gs v t2 = true) (ht1 : t1 ≠ "") :
    (gs.vote_for_player v t1).vote_for_player v t2 = gs.vote_for_player v t2 := by
  cases hfv : gs.findPlayer v with
  | none => simp [bothAlive, hfv] at hb1
  | some pv =>
  cases hf1 : gs.findPlayer t1 with
  | none => simp [bothAlive, hfv, hf1] at hb1
  | some p1 =>
  cases hf2 : gs.findPlayer t2 with
  | none => simp [bothAlive, hfv, hf2] at hb2
  | some p2 =>
  simp only [bothAlive, hfv, hf1, hf2, Bool.and_eq_true] at hb1 hb2
  obtain ⟨hav, ha1⟩ := hb1
  obtain ⟨-, ha2⟩ := hb2
  rw [vote_unfold gs v t1 pv p1 hfv hf1 hav ha1]
  cases hpt : pv.vote_target with
  | none =>
    rw [vote_unfold gs v t2 pv p2 hfv hf2 hav ha2, hpt]
    exact revote_after gs v t1 t2 pv hfv hav p2 hf2 ha2 ht1
  | some prior =>
    rw [vote_unfold gs v t2 pv p2 hfv hf2 hav ha2, hpt]
    by_cases hpe : (prior == "") = true
    · simp only [hpe, if_true]
      exact revote_after gs v t1 t2 pv hfv hav p2 hf2 ha2 ht1
    · simp only [hpe, if_false]
      have hfvb : (gs.mapPlayer prior
          (fun p => { p with votes_received := p.votes_received - 1 })).findPlayer v =
            some (if pv.name == prior
              then { pv with votes_received := pv.votes_received - 1 } else pv) := by
        rw [findPlayer_mapDec, hfv]
        rfl
      have hfvb_alive : (if pv.name == prior
          then { pv with votes_received := pv.votes_received - 1 } else pv).is_alive = true := by
        by_cases h : pv.name == prior <;> simp [h, hav]
      have hf2b : (gs.mapPlayer prior
          (fun p => { p with votes_received := p.votes_received - 1 })).findPlayer t2 =
            some (if p2.name == prior
              then { p2 with votes_received := p2.votes_received - 1 } else p2) := by
        rw [findPlayer_mapDec, hf2]
        rfl
      have hf2b_alive : (if p2.name == prior
          then { p2 with votes_received := p2.votes_received - 1 } else p2).is_alive = true := by
        by_cases h : p2.name == prior <;> simp [h, ha2]
      exact revote_after _ v t1 t2 _ hfvb hfvb_alive _ hf2b hf2b_alive ht1

/-- C8: `vote_for_player` is a no-op unless both the voter and the target
are known, currently-alive roster members; for an alive voter with no prior
vote this round, one vote increments exactly the target's tally and nothing
else; and a vote followed by a re-vote for another target equals the second
vote alone — the prior target's tally is decremented before the new one is
incremented, leaving exactly one tally incremented overall. -/
theorem vote_for_player_spec :
    (∀ (gs : GameState) (v t : String), bothAlive gs v t = false →
      gs.vote_for_player v t = gs) ∧
    (∀ (gs : GameState) (v t : String) (pv pt : Player),
      gs.findPlayer v = some pv → gs.findPlayer t = some pt →
      pv.is_alive = true → pt.is_alive = true → pv.vote_target = none →
      (gs.vote_for_player v t).players.map (fun p => p.votes_received) =
        gs.players.map
          (fun p => if p.name == t then p.votes_received + 1 else p.votes_received)) ∧
    (∀ (gs : GameState) (v t1 t2 : String),
      bothAlive gs v t1 = true → bothAlive gs v t2 = true → t1 ≠ "" →
      (gs.vote_for_player v t1).vote_for_player v t2 = gs.vote_for_player v t2) :=
  ⟨vote_noop,
   fun gs v t pv pt h1 h2 h3 h4 h5 => vote_fresh gs v t pv pt h1 h2 h3 h4 h5,
   fun gs v t1 t2 h1 h2 h3 => revote_main gs v t1 t2 h1 h2 h3⟩

/-- Witness for C8: on the demo state, `"Ann"` voting `"Wil"` and then
re-voting `"Bob"` leaves exactly the tallies of the `"Bob"` vote alone. -/
theorem vote_for_player_spec_w :
    (gsDemo.vote_for_player "Ann" "Wil").vote_for_player "Ann" "Bob" =
      gsDemo.vote_for_player "Ann" "Bob" :=
  vote_for_player_spec.2.2 gsDemo "Ann" "Wil" "Bob" (by decide) (by decide) (by decide)

/-- C9: exactly the visibility table of `_distribute_event_to_agents` — a
player's agent receives a distributed event iff the player is on the roster
and is not the moderator, and additionally, for `PUBLIC`, is alive; for
`WOLF_PRIVATE`, is an alive wolf (so never a civilian); and for
`ELIMINATION`, `GAME_STATE`, `DAY_TRANSITION`, `DAY_NUMBER_CHANGE` and
`NIGHT_KILL`, with no further condition (alive or dead).  The moderator's
agent receives nothing for any category. -/
theorem distribute_event_visibility (gs : GameState) (et : EventType) (p : Player) :
    p ∈ eventRecipients gs et ↔
      p ∈ gs.players ∧ p.role ≠ Role.GOD ∧
        (match et with
         | .PUBLIC => p.is_alive = true
         | .WOLF_PRIVATE => p.is_alive = true ∧ p.role = Role.WOLF
         | _ => True) := by
  simp only [eventRecipients, List.mem_filter, shouldReceive, Player.is_god,
    Player.is_wolf]
  cases et <;>
    cases hr : p.role <;>
      cases ha : p.is_alive <;>
        simp_all

end Werewolf
